import Mathlib

/-!
Verification development for the clacks repository: a shallow embedding of
the subscription fan-out registry (src/ws_actors/mod.rs) and of the GraphQL
execution core (src/gqln/mod.rs, src/gqln/execution.rs), with theorems
checking the specification's claims against the embedded code.

Modelling conventions:
* Rust HashMap / BTreeMap are modelled as association lists. HashMap uses
  insertion-order association lists (`alistInsert` replaces in place); BTreeMap
  uses key-sorted association lists (`insertSorted`), matching its sorted
  iteration order.
* A Rust panic (out-of-bounds index, `unwrap` of `None`, explicit `panic!`)
  is modelled as `Option.none` at the function's result.
* Machine integers: channel ids (i32) and integer payloads are Lean `Int`;
  the `as i32` cast is explicit two's-complement wrapping (`wrap32`).
* f64 payloads are carried opaquely (the modelled code never computes with
  them); `F64.isFinite` models the finiteness test of
  `serde_json::Number::from_f64`.
-/

/-! ## Generic association-list maps (model of std HashMap) -/

/-- Lookup in an association list; models `HashMap::get`. -/
def alistLookup {κ α : Type} [DecidableEq κ] : List (κ × α) → κ → Option α
  | [], _ => none
  | (k, v) :: rest, key => if k = key then some v else alistLookup rest key

/-- Insert-or-replace in an association list; models `HashMap::insert`
(replaces an existing binding in place, appends a new one). -/
def alistInsert {κ α : Type} [DecidableEq κ] (key : κ) (val : α) : List (κ × α) → List (κ × α)
  | [] => [(key, val)]
  | (k, v) :: rest => if k = key then (key, val) :: rest else (k, v) :: alistInsert key val rest

/-- Remove a key from an association list; models `HashMap::remove`. -/
def alistRemove {κ α : Type} [DecidableEq κ] (key : κ) : List (κ × α) → List (κ × α)
  | [] => []
  | (k, v) :: rest => if k = key then rest else (k, v) :: alistRemove key rest

/-! ## Subscription fan-out registry (src/ws_actors/mod.rs) -/

/-- `struct SubscriptionInstance { user: String, id: String }`. -/
structure SubscriptionInstance where
  user : String
  id : String
deriving DecidableEq, Repr

/-- `struct ActiveSubscription { channels: Vec<i32>, addr: Addr<WsHandler>, req: GqlRequest }`.
The actor address and the stored request are opaque to the registry logic;
they are modelled as numeric handles. -/
structure ActiveSubscription where
  channels : List Int
  addr : Nat
  req : Nat
deriving DecidableEq, Repr

/-- The mutable state of `struct ConnectionTracker` (the schema and db-pool
handles, which the registry only passes through to collaborators, are not
part of the modelled state). -/
structure ConnectionTracker where
  connections : Nat
  subscriptions : List (SubscriptionInstance × ActiveSubscription)
  channels : List (Int × List SubscriptionInstance)
deriving DecidableEq, Repr

/-- `ConnectionTracker::new` (with schema and pool dropped). -/
def ConnectionTracker.new : ConnectionTracker := ⟨0, [], []⟩

/-- `Vec::swap_remove(i)`: replace the element at `i` with the last element
and pop the last. Assumes `i < length` (the caller checks). -/
def swapRemove (l : List SubscriptionInstance) (i : Nat) : List SubscriptionInstance :=
  match l.getLast? with
  | none => l
  | some last => (l.set i last).dropLast

/-- One pass of the bucket-removal loop in `ConnectionTracker::remove_sub`:
`for i in 0..chsub.len() { if chsub[i] == instance { chsub.swap_remove(i); } }`.
The index list is the pre-computed `0..chsub.len()`; `chsub[i]` on an index
at or past the current length is an out-of-bounds panic, modelled as `none`. -/
def bucketRemoveIter (inst : SubscriptionInstance) :
    List Nat → List SubscriptionInstance → Option (List SubscriptionInstance)
  | [], v => some v
  | i :: rest, v =>
    if h : i < v.length then
      if v.get ⟨i, h⟩ = inst then bucketRemoveIter inst rest (swapRemove v i)
      else bucketRemoveIter inst rest v
    else none

/-- The bucket-removal loop of `remove_sub` with its range computed once from
the initial length, exactly as `for i in 0..chsub.len()` does. -/
def removeFromBucket (inst : SubscriptionInstance) (v : List SubscriptionInstance) :
    Option (List SubscriptionInstance) :=
  bucketRemoveIter inst (List.range v.length) v

/-- `ConnectionTracker::remove_sub`. Looks the instance up in the primary
map; when present, for each of its channels the bucket is fetched with
`.unwrap()` (panic when missing, modelled as `none`) and the removal loop is
run. Note: the function never removes the instance from `subscriptions`. -/
def remove_sub (st : ConnectionTracker) (user sub_id : String) : Option ConnectionTracker :=
  let inst : SubscriptionInstance := ⟨user, sub_id⟩
  match alistLookup st.subscriptions inst with
  | none => some st
  | some sub =>
    sub.channels.foldlM
      (fun acc ch =>
        match alistLookup acc.channels ch with
        | none => none
        | some bucket =>
          (removeFromBucket inst bucket).map
            (fun b => { acc with channels := alistInsert ch b acc.channels }))
      st

/-- `ConnectionTracker::remove_user`: collect the ids of the user's
subscriptions, then `remove_sub` each (HashMap key order modelled as
insertion order). -/
def remove_user (st : ConnectionTracker) (user : String) : Option ConnectionTracker :=
  let ids := (st.subscriptions.filter (fun kv => kv.1.user == user)).map (fun kv => kv.1.id)
  ids.foldlM (fun acc id => remove_sub acc user id) st

/-- `Handler<MsgNewSubscription>`: bump the connection count, insert the
record into the primary map, and append the instance to each channel bucket.
`channels` stands for the result of `get_users_channels` (an external store
call whose failure is mapped to the empty list by `unwrap_or(Vec::new())`). -/
def handleNewSubscription (st : ConnectionTracker) (user_id sub_id : String)
    (addr req : Nat) (channels : List Int) : ConnectionTracker :=
  let inst : SubscriptionInstance := ⟨user_id, sub_id⟩
  let st := { st with
    connections := st.connections + 1,
    subscriptions := alistInsert inst ⟨channels, addr, req⟩ st.subscriptions }
  channels.foldl
    (fun acc ch =>
      match alistLookup acc.channels ch with
      | some subs => { acc with channels := alistInsert ch (subs ++ [inst]) acc.channels }
      | none => { acc with channels := alistInsert ch [inst] acc.channels })
    st

/-- `Handler<MsgWsDisconnected>`: `saturating_sub(1)` on the count (Nat
subtraction is saturating), then `remove_user`. -/
def handleWsDisconnected (st : ConnectionTracker) (user : String) : Option ConnectionTracker :=
  remove_user { st with connections := st.connections - 1 } user

/-- `Handler<MsgSubscriptionStop>`: delegates to `remove_sub`. -/
def handleSubscriptionStop (st : ConnectionTracker) (user_id sub_id : String) :
    Option ConnectionTracker :=
  remove_sub st user_id sub_id

/-- A `data` frame sent by `Handler<MsgMessageCreated>`: the transport
address receiving `do_send`, the subscription id put in the
`MsgSubscriptionData`, and the user owning the subscription instance the
frame answers. The payload (the re-executed resolution result) is not part
of the registry state and is omitted here. -/
structure SentFrame where
  target : Nat
  sub_id : String
  owner : String
deriving DecidableEq, Repr

/-- The per-instance body of the `MsgMessageCreated` loop: skip when the
instance's user equals the event's sender, otherwise fetch the record with
`.unwrap()` (panic modelled as `none`) and emit a frame to its address. -/
def deliverStep (st : ConnectionTracker) (sender : String)
    (acc : List SentFrame) (sub : SubscriptionInstance) : Option (List SentFrame) :=
  if sub.user == sender then some acc
  else
    match alistLookup st.subscriptions sub with
    | none => none
    | some sub_data => some (acc ++ [⟨sub_data.addr, sub.id, sub.user⟩])

/-- `Handler<MsgMessageCreated>`: look up the channel's bucket (absent bucket
means nothing is sent) and iterate it with `deliverStep`. Returns the list
of frames sent; the registry state itself is not mutated by delivery. -/
def handleMessageCreated (st : ConnectionTracker) (channel : Int) (sender : String) :
    Option (List SentFrame) :=
  match alistLookup st.channels channel with
  | none => some []
  | some subs => subs.foldlM (deliverStep st sender) []

/-- The registry operations of the claims: register / stop / disconnect. The
`register` case carries the channel list the store returned. -/
inductive RegistryOp where
  | register (user_id sub_id : String) (addr req : Nat) (channels : List Int)
  | stop (user_id sub_id : String)
  | disconnect (user_id : String)

/-- One registry step; `none` is a panic inside the handler. -/
def registryStep (st : ConnectionTracker) : RegistryOp → Option ConnectionTracker
  | .register u s a r chs => some (handleNewSubscription st u s a r chs)
  | .stop u s => handleSubscriptionStop st u s
  | .disconnect u => handleWsDisconnected st u

/-- Run a finite sequence of registry operations from a state. -/
def registryRun (ops : List RegistryOp) (st : ConnectionTracker) : Option ConnectionTracker :=
  ops.foldlM registryStep st

/-- The bi-index coherence invariant of the spec: every instance in a
channel bucket is a key of the primary map, and every channel listed in a
primary record has a bucket containing the instance. -/
def biIndexInvariant (st : ConnectionTracker) : Bool :=
  (st.channels.all fun kv =>
    kv.2.all fun inst => (alistLookup st.subscriptions inst).isSome) &&
  (st.subscriptions.all fun kv =>
    kv.2.channels.all fun ch =>
      match alistLookup st.channels ch with
      | some bucket => bucket.contains kv.1
      | none => false)

/-! ## GraphQL values and JSON values (graphql_parser::query::Value,
serde_json::Value) -/

/-- An opaque f64 payload. The modelled code moves floats around but never
computes with them; `isFinite` stands for the finiteness test performed by
`serde_json::Number::from_f64`. -/
structure F64 where
  bits : Nat
  isFinite : Bool
deriving DecidableEq, Repr

/-- `serde_json::Number` (default representation): a non-negative integer
stored as u64, a negative integer stored as i64, or a double. Well-formed
values satisfy `posInt n → n < 2^64` and `negInt i → -2^63 ≤ i < 0`. -/
inductive JNumber where
  | posInt (n : Nat)
  | negInt (i : Int)
  | float (f : F64)
deriving DecidableEq, Repr

/-- `serde_json::Number::is_i64`. -/
def JNumber.is_i64 : JNumber → Bool
  | .posInt n => n ≤ 9223372036854775807
  | .negInt _ => true
  | .float _ => false

/-- `serde_json::Number::is_u64`. -/
def JNumber.is_u64 : JNumber → Bool
  | .posInt _ => true
  | _ => false

/-- `serde_json::Number::as_i64`. -/
def JNumber.as_i64 : JNumber → Option Int
  | .posInt n => if n ≤ 9223372036854775807 then some (n : Int) else none
  | .negInt i => some i
  | .float _ => none

/-- `serde_json::Value`. Objects are BTreeMaps (serde_json without the
preserve_order feature), modelled as key-sorted association lists. -/
inductive JsonValue where
  | null
  | bool (b : Bool)
  | num (n : JNumber)
  | str (s : String)
  | arr (elems : List JsonValue)
  | obj (entries : List (String × JsonValue))
deriving Repr

/-- `graphql_parser::query::Value`. `Int` wraps the i32 carried by
`query::Number`; `Object` is a BTreeMap modelled as a key-sorted
association list. -/
inductive GqlValue where
  | Variable (name : String)
  | Int (n : Int)
  | Float (f : F64)
  | String (s : String)
  | Boolean (b : Bool)
  | Null
  | Enum (name : String)
  | List (l : List GqlValue)
  | Object (o : List (String × GqlValue))
deriving Repr

/-- `BTreeMap::insert` on a key-sorted association list. -/
def insertSorted {α : Type} (key : String) (val : α) :
    List (String × α) → List (String × α)
  | [] => [(key, val)]
  | (k, v) :: rest =>
    if key < k then (key, val) :: (k, v) :: rest
    else if key = k then (key, val) :: rest
    else (k, v) :: insertSorted key val rest

/-- `BTreeMap::contains_key`. -/
def containsKey {α : Type} (m : List (String × α)) (key : String) : Bool :=
  m.any fun kv => kv.1 == key

/-- The `f as i32` two's-complement narrowing cast. -/
def wrap32 (i : Int) : Int :=
  (i + 2147483648) % 4294967296 - 2147483648

mutual

/-- `json_to_gql` (src/gqln/execution.rs). Numbers: when `is_u64 || is_i64`,
take `as_i64().unwrap()` (a u64 above i64::MAX panics, modelled as `none`)
and narrow it with `as i32`; otherwise the number is a double and
`as_f64().unwrap()` returns its payload. Arrays and objects convert
entrywise, objects into a BTreeMap. -/
def json_to_gql : JsonValue → Option GqlValue
  | .null => some .Null
  | .bool b => some (.Boolean b)
  | .num n =>
    if n.is_u64 || n.is_i64 then
      (n.as_i64).map (fun i => GqlValue.Int (wrap32 i))
    else
      match n with
      | .float f => some (.Float f)
      | _ => none
  | .str s => some (.String s)
  | .arr a => (json_to_gql_list a).map .List
  | .obj o => (json_to_gql_entries o []).map .Object

/-- The `Vec` collection loop of `json_to_gql` on arrays. -/
def json_to_gql_list : List JsonValue → Option (List GqlValue)
  | [] => some []
  | x :: rest =>
    match json_to_gql x with
    | none => none
    | some g =>
      match json_to_gql_list rest with
      | none => none
      | some l => some (g :: l)

/-- The BTreeMap-building loop of `json_to_gql` on objects. -/
def json_to_gql_entries : List (String × JsonValue) → List (String × GqlValue) →
    Option (List (String × GqlValue))
  | [], acc => some acc
  | (k, v) :: rest, acc =>
    match json_to_gql v with
    | none => none
    | some g => json_to_gql_entries rest (insertSorted k g acc)

end

/-! ## Error model (src/gqln/base_types.rs) -/

/-- `struct QueryValidationError { msg, subject_name }`. -/
structure QueryValidationError where
  msg : String
  subject_name : String
deriving DecidableEq, Repr

/-- `enum GqlQueryErr`. -/
inductive GqlQueryErr where
  | Variable (e : QueryValidationError)
  | Fragment (e : QueryValidationError)
  | Directive (e : QueryValidationError)
  | Field (e : QueryValidationError)
  | Type (e : QueryValidationError)
deriving DecidableEq, Repr

/-- `enum GqlSchemaErr`. -/
inductive GqlSchemaErr where
  | UknownScalar
  | DublicateDef
  | MissingType (name : String)
  | MissingResolver (tf : String × String)
  | InvalidResolver
deriving DecidableEq, Repr

/-- `struct MissingArgument`. -/
structure MissingArgument where
  on_type : String
  name : String
  on_field : String
deriving DecidableEq, Repr

/-- `enum ResolutionErr` (the source's `IO` variant is named `Io` here). -/
inductive ResolutionErr where
  | Io
  | QueryValidation (e : GqlQueryErr)
  | SchemaIssue (e : GqlSchemaErr)
  | QueryParseIssue (msg : String)
  | QueryResult (msg : String)
  | MissingArgument (a : MissingArgument)
deriving DecidableEq, Repr

/-! ## Variable checking and coercion (src/gqln/execution.rs) -/

/-- `graphql_parser::query::Type`. -/
inductive GqlType where
  | NamedType (name : String)
  | ListType (t : GqlType)
  | NonNullType (t : GqlType)
deriving DecidableEq, Repr

/-- The `Debug` rendering of `query::Type`, used in the mismatch message of
`parse_variables` via `format!("{:?}", var_def.var_type)`. -/
def typeDebug : GqlType → String
  | .NamedType s => "NamedType(\"" ++ s ++ "\")"
  | .ListType t => "ListType(" ++ typeDebug t ++ ")"
  | .NonNullType t => "NonNullType(" ++ typeDebug t ++ ")"

/-- True exactly when the value is `GqlValue::Null` (the `v == &GqlValue::Null`
comparison of the NonNull arm). -/
def GqlValue.isNull : GqlValue → Bool
  | .Null => true
  | _ => false

/-- `naive_check_var_type` (src/gqln/execution.rs lines 10-34), arm for arm
in source order; a guard that fails falls through to the later arms, which
for the scalar arms always ends in the final `_ => false`. Note the Int arm
compares the type name against "Integer". -/
def naive_check_var_type : GqlType → GqlValue → Bool
  | _, .Variable _ => false
  | .NamedType _, .Null => true
  | .ListType _, .Null => true
  | .NamedType l, .String _ => l == "String"
  | .NamedType l, .Float _ => l == "Float"
  | .NamedType l, .Int _ => l == "Integer"
  | .NamedType l, .Boolean _ => l == "Boolean"
  | .NamedType _, .Enum _ => true
  | .NamedType _, .Object _ => true
  | .NonNullType j, v => !v.isNull && naive_check_var_type j v
  | .ListType j, .List v =>
    match v with
    | [] => true
    | t :: _ => naive_check_var_type j t
  | .ListType _, _ => false
  | _, _ => false

/-- `query::VariableDefinition` (positions dropped). -/
structure VarDef where
  name : String
  var_type : GqlType
  default_value : Option GqlValue
deriving Repr

/-- The `Debug` rendering of a `serde_json::Value`, used by the
wrong-variables-type error of `parse_variables`. Approximates serde's
format; no theorem depends on its exact text. -/
def jsonDebug : JsonValue → String
  | .null => "Null"
  | .bool b => "Bool(" ++ (if b then "true" else "false") ++ ")"
  | .num _ => "Number"
  | .str s => "String(\"" ++ s ++ "\")"
  | .arr _ => "Array"
  | .obj _ => "Object"

/-- The per-provided-variable loop body of `parse_variables`: convert the
JSON value (conversion panics propagate), look up the declaration
(unexpected variables fail `Variable`), shallow-check the type, then move
the binding from the pending declarations into the bindings map. State is
`(pending declarations, bindings so far)`. -/
def parse_variables_loop :
    List (String × JsonValue) → List (String × VarDef) → List (String × GqlValue) →
    Option (Except GqlQueryErr (List (String × VarDef) × List (String × GqlValue)))
  | [], defs, vars => some (.ok (defs, vars))
  | (var_name, var_value) :: rest, defs, vars =>
    match json_to_gql var_value with
    | none => none
    | some gql_var_value =>
      match alistLookup defs var_name with
      | none =>
        some (.error (.Variable
          ⟨"Unexpected variable " ++ var_name ++ " found", var_name⟩))
      | some var_def =>
        if !naive_check_var_type var_def.var_type gql_var_value then
          some (.error (.Variable
            ⟨"the variable " ++ var_name ++ " was not of type " ++ typeDebug var_def.var_type,
             var_name⟩))
        else
          parse_variables_loop rest (alistRemove var_name defs)
            (alistInsert var_name gql_var_value vars)

/-- The trailing defaults loop of `parse_variables`: every declaration that
received no value must carry a default. -/
def parse_variables_defaults :
    List (String × VarDef) → List (String × GqlValue) →
    Except GqlQueryErr (List (String × GqlValue))
  | [], vars => .ok vars
  | (var_name, var_def) :: rest, vars =>
    match var_def.default_value with
    | some dflt => parse_variables_defaults rest (alistInsert var_name dflt vars)
    | none =>
      .error (.Variable ⟨"Variable " ++ var_name ++ " was not provided a value", ""⟩)

/-- The tail of `parse_variables` after the variables object is in hand. -/
def parse_variables_go (defsMap : List (String × VarDef))
    (vmap : List (String × JsonValue)) :
    Option (Except GqlQueryErr (List (String × GqlValue))) :=
  match parse_variables_loop vmap defsMap [] with
  | none => none
  | some (.error e) => some (.error e)
  | some (.ok (remaining, vars)) => some (parse_variables_defaults remaining vars)

/-- `GqlRunningQuery::parse_variables` (src/gqln/execution.rs lines 147-210)
as a function of the declared variable definitions and the request's
`variables` JSON; returns the prepared bindings map. HashMap iteration
order is modelled as insertion order. -/
def parse_variables (var_defs : List VarDef) (var_values : Option JsonValue) :
    Option (Except GqlQueryErr (List (String × GqlValue))) :=
  let defsMap := var_defs.foldl (fun m d => alistInsert d.name d m) []
  if defsMap.length == 0 && var_values.isNone then
    some (.ok [])
  else
    match var_values with
    | some (.obj vmap) => parse_variables_go defsMap vmap
    | none => parse_variables_go defsMap []
    | some v =>
      some (.error (.Variable
        ⟨"Variables object in reqest was of the wrong type.", jsonDebug v⟩))

/-! ## Query documents and operation selection (src/gqln/execution.rs) -/

mutual

/-- `graphql_parser::query::Selection`. -/
inductive Selection where
  | Field (f : QField)
  | FragmentSpread (fragment_name : String)
  | InlineFragment (type_condition : Option String) (items : List Selection)

/-- `graphql_parser::query::Field` (alias, positions and directives dropped:
the modelled code paths read only name, arguments and selection set). -/
inductive QField where
  | mk (name : String) (arguments : List (String × GqlValue))
       (selection_set : List Selection)

end

/-- The field's name. -/
def QField.name : QField → String
  | .mk n _ _ => n

/-- The field's literal arguments. -/
def QField.arguments : QField → List (String × GqlValue)
  | .mk _ a _ => a

/-- The field's selection set. -/
def QField.selection_set : QField → List Selection
  | .mk _ _ s => s

/-- `query::FragmentDefinition` (type condition unwrapped from
`TypeCondition::On`, directives and positions dropped). -/
structure FragmentDefinition where
  name : String
  type_condition : String
  selection_set : List Selection

/-- One of `query::Query` / `query::Mutation` / `query::Subscription`: name,
variable definitions, directives (only their count matters to the modelled
code) and selection set. -/
structure OperationDef where
  name : Option String
  variable_definitions : List VarDef
  directives : List String
  selection_set : List Selection

/-- `query::Definition`, restricted to the variants the code distinguishes. -/
inductive QDefinition where
  | Query (q : OperationDef)
  | Mutation (m : OperationDef)
  | Subscription (s : OperationDef)
  | Fragment (f : FragmentDefinition)

/-- `GqlRunningQuery::get_queries`. -/
def get_queries (doc : List QDefinition) : List OperationDef :=
  doc.filterMap fun d =>
    match d with
    | .Query q => some q
    | _ => none

/-- `GqlRunningQuery::get_mutations`. -/
def get_mutations (doc : List QDefinition) : List OperationDef :=
  doc.filterMap fun d =>
    match d with
    | .Mutation m => some m
    | _ => none

/-- `GqlRunningQuery::get_subscriptions`. -/
def get_subscriptions (doc : List QDefinition) : List OperationDef :=
  doc.filterMap fun d =>
    match d with
    | .Subscription s => some s
    | _ => none

/-- `GqlRunningQuery::get_var_defs`: the variable definitions of every
operation, flattened in document order. -/
def get_var_defs (doc : List QDefinition) : List VarDef :=
  (doc.filterMap fun d =>
    match d with
    | .Query q => some q.variable_definitions
    | .Mutation m => some m.variable_definitions
    | .Subscription s => some s.variable_definitions
    | .Fragment _ => none).flatten

/-- `GqlRunningQuery::parse_fragments`: index fragment definitions by name;
later definitions overwrite earlier ones. -/
def parse_fragments (doc : List QDefinition) : List (String × FragmentDefinition) :=
  doc.foldl
    (fun m d =>
      match d with
      | .Fragment f => alistInsert f.name f m
      | _ => m)
    []

mutual

/-- `GqlRunningQuery::get_fields` (src/gqln/execution.rs lines 212-246).
A plain field is returned as is; a fragment spread expands the referenced
fragment's selection set against the current parent type (unknown fragments
fail `Fragment`); an inline fragment whose type condition equals the current
parent type yields no fields, any other (or no) condition expands its
selection set. `fuel` bounds the fragment-expansion depth: the source
recursion does not terminate on cyclic fragments, modelled as `none`. -/
def get_fields (fuel : Nat) (frags : List (String × FragmentDefinition))
    (selection : Selection) (on_type : String) :
    Option (Except GqlQueryErr (List QField)) :=
  match fuel with
  | 0 => none
  | fuel + 1 =>
    match selection with
    | .Field f => some (.ok [f])
    | .FragmentSpread nm =>
      match alistLookup frags nm with
      | none => some (.error (.Fragment ⟨"Fragment " ++ nm ++ " not found", nm⟩))
      | some fragment => get_fields_list fuel frags fragment.selection_set on_type
    | .InlineFragment cond items =>
      if cond == some on_type then some (.ok [])
      else get_fields_list fuel frags items on_type
termination_by (fuel, 0)

/-- The accumulation loops of `get_fields` and `fields_from_selectionset`:
expand each selection and concatenate, stopping at the first error. -/
def get_fields_list (fuel : Nat) (frags : List (String × FragmentDefinition))
    (items : List Selection) (on_type : String) :
    Option (Except GqlQueryErr (List QField)) :=
  match items with
  | [] => some (.ok [])
  | s :: rest =>
    match get_fields fuel frags s on_type with
    | none => none
    | some (.error e) => some (.error e)
    | some (.ok fs) =>
      match get_fields_list fuel frags rest on_type with
      | none => none
      | some (.error e) => some (.error e)
      | some (.ok fs2) => some (.ok (fs ++ fs2))
termination_by (fuel, items.length + 1)

end

/-- `GqlRunningQuery::fields_from_selectionset`. -/
def fields_from_selectionset (fuel : Nat) (frags : List (String × FragmentDefinition))
    (set : List Selection) (on_type : String) :
    Option (Except GqlQueryErr (List QField)) :=
  get_fields_list fuel frags set on_type

/-- `struct FieldSelection { name, initial_fields }`. -/
structure FieldSelection where
  name : Option String
  initial_fields : List QField

/-- The per-operation body of each branch of `get_initial_items`: reject
operations carrying directives, otherwise lower the selection set against
the branch's starting type. -/
def collect_operations (fuel : Nat) (frags : List (String × FragmentDefinition))
    (ops : List OperationDef) (on_type : String) (dir_msg : String) :
    Option (Except GqlQueryErr (List FieldSelection)) :=
  match ops with
  | [] => some (.ok [])
  | q :: rest =>
    if q.directives.length > 0 then
      some (.error (.Directive ⟨dir_msg, "Query"⟩))
    else
      match fields_from_selectionset fuel frags q.selection_set on_type with
      | none => none
      | some (.error e) => some (.error e)
      | some (.ok fs) =>
        match collect_operations fuel frags rest on_type dir_msg with
        | none => none
        | some (.error e) => some (.error e)
        | some (.ok sels) => some (.ok (⟨q.name, fs⟩ :: sels))

/-- `GqlRunningQuery::get_initial_items` (src/gqln/execution.rs lines
267-331): exactly one operation kind may be present; the matching branch
lowers its operations and reports the starting type, and any other mix of
kinds (including the empty document) fails `Field` with the message
"Request may only contain". -/
def get_initial_items (fuel : Nat) (frags : List (String × FragmentDefinition))
    (doc : List QDefinition) :
    Option (Except GqlQueryErr (List FieldSelection × String)) :=
  let queries := get_queries doc
  let mutations := get_mutations doc
  let subscriptions := get_subscriptions doc
  if queries.length > 0 && mutations.length == 0 && subscriptions.length == 0 then
    match collect_operations fuel frags queries "Query" "No directives supported on query" with
    | none => none
    | some (.error e) => some (.error e)
    | some (.ok sels) => some (.ok (sels, "Query"))
  else if mutations.length > 0 && queries.length == 0 && subscriptions.length == 0 then
    match collect_operations fuel frags mutations "Mutation"
        "No directives supported on a mutation" with
    | none => none
    | some (.error e) => some (.error e)
    | some (.ok sels) => some (.ok (sels, "Mutation"))
  else if subscriptions.length > 0 && queries.length == 0 && mutations.length == 0 then
    match collect_operations fuel frags subscriptions "Subscription"
        "No directives supported on subscription" with
    | none => none
    | some (.error e) => some (.error e)
    | some (.ok sels) => some (.ok (sels, "Subscription"))
  else
    some (.error (.Field ⟨"Request may only contain", "Query"⟩))

/-- The preparation prefix of `GqlSchema::resolve` (src/gqln/mod.rs lines
405-416) on an already-parsed document: hoist fragments, coerce variables,
then select the operation kind. Every error here aborts the request before
any resolver is invoked; the success value carries the lowered selections,
the starting type, and the variable bindings. -/
def resolve_prepares (fuel : Nat) (doc : List QDefinition)
    (var_values : Option JsonValue) :
    Option (Except ResolutionErr (List FieldSelection × String × List (String × GqlValue))) :=
  let frags := parse_fragments doc
  match parse_variables (get_var_defs doc) var_values with
  | none => none
  | some (.error e) => some (.error (.QueryValidation e))
  | some (.ok vars) =>
    match get_initial_items fuel frags doc with
    | none => none
    | some (.error e) => some (.error (.QueryValidation e))
    | some (.ok (items, ty)) => some (.ok (items, ty, vars))

/-! ## Execution engine (src/gqln/mod.rs) -/

/-- `struct SimpleField` — a lowered selection node. Directive values are
carried by the source but never read by the resolution loop; their names
suffice here. -/
structure SimpleField where
  name : String
  directives : List String
  arguments : List (String × GqlValue)
  fields : List SimpleField

/-- A resolution data map (`GqlObj = BTreeMap<String, GqlValue>`). -/
def GqlObj : Type := List (String × GqlValue)

/-- `enum ResolutionReturn`, restricted to the variants the resolution loop
dispatches on (the source also declares a `List(Vec<GqlValue>)` variant that
no arm of the loop's match covers and no resolver in the repository
constructs). -/
inductive ResolutionReturn where
  | Scalar (v : GqlValue)
  | Type (t : String × GqlObj)
  | TypeList (t : String × List GqlObj)

/-- A resolver body: `fn(&GqlRoot, GqlArgs, &mut C, &GqlSchema<C>) -> ResResult`,
with the mutable context threaded explicitly. The schema handle that the
source passes back into resolvers is not needed by any theorem and is
dropped from the modelled signature. -/
def ResolverFn (Ctx : Type) : Type :=
  GqlObj → List (String × GqlValue) → Ctx → Except ResolutionErr ResolutionReturn × Ctx

/-- The resolver registry of `GqlSchema` (the type catalogs play no role in
the resolution loop itself). -/
structure GqlSchemaM (Ctx : Type) where
  resolvers : List (String × List (String × ResolverFn Ctx))

/-- `GqlSchema::get_resolvers`. -/
def get_resolvers {Ctx : Type} (sch : GqlSchemaM Ctx) (on_type on_field : String) :
    Except ResolutionErr (ResolverFn Ctx) :=
  match alistLookup sch.resolvers on_type with
  | none => .error (.SchemaIssue (.MissingResolver (on_type, on_field)))
  | some inner =>
    match alistLookup inner on_field with
    | none => .error (.SchemaIssue (.MissingResolver (on_type, on_field)))
    | some r => .ok r

/-- `GqlSchema::get_resolution_value_next`: the `__type` and `__typename`
special fields, then resolver dispatch. -/
def get_resolution_value_next {Ctx : Type} (sch : GqlSchemaM Ctx) (on_type : String)
    (field : SimpleField) (ctx : Ctx) (data : GqlObj) :
    Except ResolutionErr ResolutionReturn × Ctx :=
  if field.name == "__type" then
    (.ok (.Type ("__Type",
      insertSorted "name" (.String on_type) (insertSorted "kind" (.Enum "OBJECT") []))), ctx)
  else if field.name == "__typename" then
    (.ok (.Scalar (.String on_type)), ctx)
  else
    match get_resolvers sch on_type field.name with
    | .error e => (.error e, ctx)
    | .ok r => r data field.arguments ctx

/-- `struct ResolutionContext` — one work frame of the explicit stack. -/
structure ResolutionContext where
  cur_type : String
  map_key : String
  fields : List SimpleField
  field_res_progress : Nat := 0
  data : GqlObj := []
  in_list : Option Nat := none

/-- What processing one frame's remaining fields produces: all fields done,
or a suspension that pushes a child frame (`Type`) or a batch of list-element
frames (`TypeList`). -/
inductive FrameStep (Ctx : Type) where
  | done (fr : ResolutionContext) (ctx : Ctx)
  | pushType (parent : ResolutionContext) (child : ResolutionContext) (ctx : Ctx)
  | pushList (parent : ResolutionContext) (children : List ResolutionContext) (ctx : Ctx)

/-- The body of the inner `while let Some(field) = res_ctx.fields.get(...)`
loop of `resolve_loop_next`, iterating over the not-yet-processed suffix of
the frame's fields (a frame's `fields` list never changes, so reading
`fields.get(progress)` each round is the same as walking the suffix while
incrementing `progress` in lockstep): advance progress; a field whose name
is already in `data` is skipped outright (`continue`); otherwise resolve it
and dispatch. `stackLen` is the stack length at the time the frame was
popped, used as the `parent_index` stored in list-element child frames. -/
def runFrameGo {Ctx : Type} (sch : GqlSchemaM Ctx) (stackLen : Nat) (ctx : Ctx)
    (fr : ResolutionContext) : List SimpleField → Except ResolutionErr (FrameStep Ctx)
  | [] => .ok (.done fr ctx)
  | field :: rem =>
    let fr1 : ResolutionContext := { fr with field_res_progress := fr.field_res_progress + 1 }
    if containsKey fr1.data field.name then
      runFrameGo sch stackLen ctx fr1 rem
    else
      match get_resolution_value_next sch fr1.cur_type field ctx fr1.data with
      | (.error e, _) => .error e
      | (.ok ret, ctx1) =>
        match ret with
        | .Scalar v =>
          runFrameGo sch stackLen ctx1
            { fr1 with data := insertSorted field.name v fr1.data } rem
        | .Type (gql_type, initial_field_results) =>
          .ok (.pushType fr1
            { cur_type := gql_type, map_key := field.name, fields := field.fields,
              data := initial_field_results } ctx1)
        | .TypeList (gql_type, initial_values) =>
          .ok (.pushList
            { fr1 with data := insertSorted field.name (.List []) fr1.data }
            (initial_values.map fun t =>
              { cur_type := gql_type, map_key := field.name, fields := field.fields,
                data := t, in_list := some stackLen })
            ctx1)

/-- Process a popped frame from its stored progress. -/
def runFrame {Ctx : Type} (sch : GqlSchemaM Ctx) (stackLen : Nat) (ctx : Ctx)
    (fr : ResolutionContext) : Except ResolutionErr (FrameStep Ctx) :=
  runFrameGo sch stackLen ctx fr (fr.fields.drop fr.field_res_progress)

/-- `Vec::pop` on the frame stack (index 0 is the bottom of the stack). -/
def stackPop (l : List ResolutionContext) : Option (List ResolutionContext × ResolutionContext) :=
  match l.getLast? with
  | none => none
  | some fr => some (l.dropLast, fr)

/-- The outer loop of `resolve_loop_next`. `fuel` bounds the number of frame
pops; the panics of the stitching step (an absent list slot, or the
"Found a list that was not a list!" branch) are modelled as `none` like
fuel exhaustion. -/
def resolveLoopGo {Ctx : Type} (sch : GqlSchemaM Ctx) :
    Nat → Ctx → List ResolutionContext → Option (Except ResolutionErr GqlObj)
  | 0, _, _ => none
  | fuel + 1, ctx, stack =>
    match stackPop stack with
    | none => some (.ok [])
    | some (rest, fr) =>
      match runFrame sch rest.length ctx fr with
      | .error e => some (.error e)
      | .ok (.pushType parent child ctx1) =>
        resolveLoopGo sch fuel ctx1 (rest ++ [parent, child])
      | .ok (.pushList parent children ctx1) =>
        resolveLoopGo sch fuel ctx1 (rest ++ [parent] ++ children)
      | .ok (.done fr1 ctx1) =>
        if rest.isEmpty then some (.ok fr1.data)
        else
          match fr1.in_list with
          | some parent_index =>
            match rest[parent_index]? with
            | none => none
            | some parent =>
              match alistLookup parent.data fr1.map_key with
              | some (.List l) =>
                resolveLoopGo sch fuel ctx1
                  (rest.set parent_index
                    { parent with data :=
                        insertSorted fr1.map_key (.List (l ++ [.Object fr1.data])) parent.data })
              | _ => none
          | none =>
            match rest.getLast? with
            | none => none
            | some top =>
              resolveLoopGo sch fuel ctx1
                (rest.dropLast ++
                  [{ top with data := insertSorted fr1.map_key (.Object fr1.data) top.data }])

/-- `struct PendingQuery`. -/
structure PendingQuery where
  on_type : String
  fields : List SimpleField

/-- `GqlSchema::resolve_loop_next` (src/gqln/mod.rs lines 239-334): build the
initial frame (seeding its data from the optional root) and run the loop. -/
def resolve_loop_next {Ctx : Type} (sch : GqlSchemaM Ctx) (fuel : Nat) (ctx : Ctx)
    (q : PendingQuery) (initial_root : Option GqlObj) :
    Option (Except ResolutionErr GqlObj) :=
  resolveLoopGo sch fuel ctx
    [{ cur_type := q.on_type, map_key := "", fields := q.fields,
       data := initial_root.getD [] }]

mutual

/-- `sparsify_return` (src/gqln/mod.rs lines 459-476): inside an `Object`,
keep exactly the keys named by a prepared field (recursing with the first
field of that name) and drop the rest. Every non-object value — including a
`List` — is left untouched. -/
def sparsify_return (v : GqlValue) (field : SimpleField) : GqlValue :=
  match v with
  | .Object obj => .Object (sparsify_obj obj field.fields)
  | v => v

/-- The key-retention loop of `sparsify_return`. -/
def sparsify_obj : List (String × GqlValue) → List SimpleField → List (String × GqlValue)
  | [], _ => []
  | (k, v) :: rest, flds =>
    match flds.find? (fun f => f.name == k) with
    | some f => (k, sparsify_return v f) :: sparsify_obj rest flds
    | none => sparsify_obj rest flds

end

mutual

/-- `gql_to_json` (src/gqln/execution.rs lines 358-385). The
`JsonNumber::from_f64(f).unwrap()` on a non-finite float panics (`none`);
a `Variable` fails; objects and lists convert entrywise. -/
def gql_to_json : GqlValue → Option (Except GqlQueryErr JsonValue)
  | .Null => some (.ok .null)
  | .Boolean b => some (.ok (.bool b))
  | .Float f => if f.isFinite then some (.ok (.num (.float f))) else none
  | .Int i => some (.ok (.num (if i ≥ 0 then .posInt i.toNat else .negInt i)))
  | .String s => some (.ok (.str s))
  | .Enum n => some (.ok (.str n))
  | .Variable v =>
    some (.error (.Variable ⟨"Could not turn graphql varaible into JSON", v⟩))
  | .Object o => gql_obj_to_json o []
  | .List l => gql_list_to_json l

/-- The object loop of `gql_to_json`, building a `serde_json::Map`
(a BTreeMap). -/
def gql_obj_to_json : List (String × GqlValue) → List (String × JsonValue) →
    Option (Except GqlQueryErr JsonValue)
  | [], acc => some (.ok (.obj acc))
  | (k, v) :: rest, acc =>
    match gql_to_json v with
    | none => none
    | some (.error e) => some (.error e)
    | some (.ok j) => gql_obj_to_json rest (insertSorted k j acc)

/-- The list loop of `gql_to_json`. -/
def gql_list_to_json : List GqlValue → Option (Except GqlQueryErr JsonValue)
  | [] => some (.ok (.arr []))
  | v :: rest =>
    match gql_to_json v with
    | none => none
    | some (.error e) => some (.error e)
    | some (.ok j) =>
      match gql_list_to_json rest with
      | none => none
      | some (.error e) => some (.error e)
      | some (.ok (.arr items)) => some (.ok (.arr (j :: items)))
      | some (.ok _) => none

end

/-- The per-top-level-field epilogue of `GqlSchema::resolve` (src/gqln/mod.rs
lines 444-452): fetch the field's slot with `.unwrap()` (panic when absent,
modelled as `none`), sparsify it in place, render it to JSON (conversion
failures become `QueryResult`), and insert it into the response map. -/
def resolve_top_fields : List SimpleField → GqlObj → List (String × JsonValue) →
    Option (Except ResolutionErr (List (String × JsonValue)))
  | [], _, data => some (.ok data)
  | field :: rest, res, data =>
    match alistLookup res field.name with
    | none => none
    | some val =>
      let val1 := sparsify_return val field
      let res1 := insertSorted field.name val1 res
      match gql_to_json val1 with
      | none => none
      | some (.error _) => some (.error (.QueryResult "Could not encode result to JSON"))
      | some (.ok jdata) => resolve_top_fields rest res1 (insertSorted field.name jdata data)

/-- The resolution body of `GqlSchema::resolve` for one prepared operation
(src/gqln/mod.rs lines 418-455, with the preparation steps of
`resolve_prepares` already done): run the loop, then sparsify and render
each top-level field into the response object. -/
def resolveCore {Ctx : Type} (sch : GqlSchemaM Ctx) (fuel : Nat) (ctx : Ctx)
    (pq : PendingQuery) (root : Option GqlObj) : Option (Except ResolutionErr JsonValue) :=
  match resolve_loop_next sch fuel ctx pq root with
  | none => none
  | some (.error e) => some (.error e)
  | some (.ok res) =>
    match resolve_top_fields pq.fields res [] with
    | none => none
    | some (.error e) => some (.error e)
    | some (.ok data) => some (.ok (.obj data))

/-! ## Claim properties -/

mutual

/-- The sparsification law of the spec, read off a JSON response value:
every key of every object, at every depth — descending into array elements
without changing depth — names a prepared field of the selection at that
depth. -/
def jsonKeysSelected (j : JsonValue) (flds : List SimpleField) : Bool :=
  match j with
  | .obj kvs => jsonEntriesSelected kvs flds
  | .arr l => jsonListSelected l flds
  | _ => true

/-- `jsonKeysSelected` over the entries of an object. -/
def jsonEntriesSelected (kvs : List (String × JsonValue)) (flds : List SimpleField) : Bool :=
  match kvs with
  | [] => true
  | (k, v) :: rest =>
    (match flds.find? (fun f => f.name == k) with
     | some f => jsonKeysSelected v f.fields
     | none => false) &&
    jsonEntriesSelected rest flds

/-- `jsonKeysSelected` over the elements of an array. -/
def jsonListSelected (l : List JsonValue) (flds : List SimpleField) : Bool :=
  match l with
  | [] => true
  | x :: rest => jsonKeysSelected x flds && jsonListSelected rest flds

end

mutual

/-- The part of the sparsification law that does hold of `sparsify_return`:
every key reached from the value through object nesting only (stopping at
lists) names a prepared field at that depth. -/
def objKeysSelected (v : GqlValue) (f : SimpleField) : Bool :=
  match v with
  | .Object obj => objEntriesSelected obj f.fields
  | _ => true

/-- `objKeysSelected` over the entries of an object. -/
def objEntriesSelected (obj : List (String × GqlValue)) (flds : List SimpleField) : Bool :=
  match obj with
  | [] => true
  | (k, v) :: rest =>
    (match flds.find? (fun fl => fl.name == k) with
     | some fl => objKeysSelected v fl
     | none => false) &&
    objEntriesSelected rest flds

end

/-! ## Concrete fixtures for the counterexamples and witnesses -/

/-- A leaf prepared field. -/
def leafField (name : String) : SimpleField := ⟨name, [], [], []⟩

/-- The prepared operation `{ messages { id } }`. -/
def c1Pending : PendingQuery :=
  ⟨"Query", [⟨"messages", [], [], [leafField "id"]⟩]⟩

/-- A resolver registry where `Query.messages` returns a `TypeList` whose
single seed map carries the requested `id` together with the helper key
`parentTypename` — the seeding pattern of the repository's introspection
resolvers (src/gqln/introspect.rs). -/
def c1Schema : GqlSchemaM Unit :=
  ⟨[("Query",
     [("messages", fun _root _args ctx =>
        (.ok (.TypeList ("Message",
          [insertSorted "parentTypename" (.String "Query")
            (insertSorted "id" (.String "1") [])])), ctx))])]⟩

/-- The prepared operation `{ a { y } }`. -/
def c5Pending : PendingQuery := ⟨"Query", [⟨"a", [], [], [leafField "y"]⟩]⟩

/-- A registry with a resolver for the child field `A.y`. -/
def c5Schema : GqlSchemaM Unit :=
  ⟨[("A", [("y", fun _root _args ctx => (.ok (.Scalar (.Int 42)), ctx))])]⟩

/-- A root that already seeds the top-level field `a` with an object. -/
def c5Root : GqlObj := [("a", .Object [("z", .Int 1)])]

/-- Variable declarations `foo: String!, bar: Int, sham: Boolean`. -/
def c4DefsInt : List VarDef :=
  [⟨"foo", .NonNullType (.NamedType "String"), none⟩,
   ⟨"bar", .NamedType "Int", none⟩,
   ⟨"sham", .NamedType "Boolean", none⟩]

/-- The same declarations with `bar: Integer`, the name the check really
compares against. -/
def c4DefsInteger : List VarDef :=
  [⟨"foo", .NonNullType (.NamedType "String"), none⟩,
   ⟨"bar", .NamedType "Integer", none⟩,
   ⟨"sham", .NamedType "Boolean", none⟩]

/-- The request variables object, in BTreeMap (sorted) iteration order. -/
def c4Values : JsonValue :=
  .obj [("bar", .num (.posInt 6)), ("foo", .str "Hello"), ("sham", .bool true)]

/-- A document holding one query and one mutation, both trivial. -/
def c6Doc : List QDefinition :=
  [.Query ⟨none, [], [], []⟩, .Mutation ⟨none, [], [], []⟩]

/-- A fragment definition used to instantiate the fragment-spread claim. -/
def c8Frag : FragmentDefinition := ⟨"F", "T", [.Field (QField.mk "x" [] [])]⟩

/-- A registry state with users "a" and "b" both subscribed on channel 7. -/
def c7State : ConnectionTracker :=
  (registryRun [.register "a" "s1" 0 0 [7], .register "b" "s2" 1 1 [7]]
    ConnectionTracker.new).getD ConnectionTracker.new

/-- Entrywise conversion of a JSON object's entries, used to characterize
`json_to_gql` on objects. -/
def json_obj_entries : List (String × JsonValue) → Option (List (String × GqlValue))
  | [] => some []
  | (k, v) :: rest =>
    match json_to_gql v with
    | none => none
    | some g => (json_obj_entries rest).map fun ps => (k, g) :: ps

/-! ## Theorems -/

/-! ### Shared helper lemmas -/

theorem containsKey_isSome {α : Type} (m : List (String × α)) (key : String)
    (h : containsKey m key = true) : (alistLookup m key).isSome = true := by
  induction m with
  | nil => simp [containsKey] at h
  | cons kv rest ih =>
    obtain ⟨k, v⟩ := kv
    simp only [containsKey, List.any_cons] at h
    by_cases hk : k = key
    · simp [alistLookup, hk]
    · simp only [alistLookup, if_neg hk]
      rcases Bool.or_eq_true_iff.mp h with h1 | h2
      · exact absurd (by simpa using h1) hk
      · exact ih h2

mutual

theorem sparsify_objKeys_aux : ∀ (v : GqlValue) (f : SimpleField),
    objKeysSelected (sparsify_return v f) f = true
  | .Object obj, f => by
    rw [sparsify_return, objKeysSelected]
    exact sparsify_entries_aux obj f.fields
  | .Variable _, _ => rfl
  | .Int _, _ => rfl
  | .Float _, _ => rfl
  | .String _, _ => rfl
  | .Boolean _, _ => rfl
  | .Null, _ => rfl
  | .Enum _, _ => rfl
  | .List _, _ => rfl

theorem sparsify_entries_aux : ∀ (obj : List (String × GqlValue)) (flds : List SimpleField),
    objEntriesSelected (sparsify_obj obj flds) flds = true
  | [], _ => rfl
  | (k, v) :: rest, flds => by
    rw [sparsify_obj]
    cases hf : flds.find? (fun fl => fl.name == k) with
    | none => exact sparsify_entries_aux rest flds
    | some fl =>
      rw [objEntriesSelected, hf]
      simp only [sparsify_objKeys_aux v fl, sparsify_entries_aux rest flds, Bool.and_self]

end

theorem deliver_fold_owner (st : ConnectionTracker) (sender : String) :
    ∀ (subs : List SubscriptionInstance) (acc frames : List SentFrame),
      subs.foldlM (deliverStep st sender) acc = some frames →
      ∀ f ∈ frames, f ∈ acc ∨ f.owner ≠ sender := by
  intro subs
  induction subs with
  | nil =>
    intro acc frames h f hf
    simp only [List.foldlM_nil] at h
    have hacc : acc = frames := by simpa using h
    exact Or.inl (hacc ▸ hf)
  | cons sub rest ih =>
    intro acc frames h f hf
    simp only [List.foldlM_cons] at h
    unfold deliverStep at h
    by_cases hu : sub.user == sender
    · rw [if_pos hu] at h
      exact ih acc frames h f hf
    · rw [if_neg hu] at h
      cases hl : alistLookup st.subscriptions sub with
      | none => rw [hl] at h; exact Option.noConfusion h
      | some sub_data =>
        rw [hl] at h
        rcases ih _ frames h f hf with hin | hne
        · rcases List.mem_append.mp hin with hin2 | hin2
          · exact Or.inl hin2
          · refine Or.inr ?_
            have hfe : f = ⟨sub_data.addr, sub.id, sub.user⟩ := by simpa using hin2
            have hus : sub.user ≠ sender := by simpa using hu
            rw [hfe]
            exact hus
        · exact Or.inr hne

theorem deliver_fold_filter (st : ConnectionTracker) (sender : String) :
    ∀ (subs : List SubscriptionInstance) (acc frames : List SentFrame),
      subs.foldlM (deliverStep st sender) acc = some frames →
      frames.map (fun f => SubscriptionInstance.mk f.owner f.sub_id)
        = acc.map (fun f => SubscriptionInstance.mk f.owner f.sub_id)
          ++ subs.filter (fun s => !(s.user == sender)) := by
  intro subs
  induction subs with
  | nil =>
    intro acc frames h
    simp only [List.foldlM_nil] at h
    have hacc : acc = frames := by simpa using h
    simp [hacc]
  | cons sub rest ih =>
    intro acc frames h
    simp only [List.foldlM_cons] at h
    unfold deliverStep at h
    by_cases hu : sub.user == sender
    · rw [if_pos hu] at h
      rw [ih acc frames h]
      simp [List.filter_cons, hu]
    · rw [if_neg hu] at h
      cases hl : alistLookup st.subscriptions sub with
      | none => rw [hl] at h; exact Option.noConfusion h
      | some sub_data =>
        rw [hl] at h
        rw [ih _ frames h]
        simp [List.filter_cons, hu]

theorem json_entries_char :
    ∀ (kvs : List (String × JsonValue)) (acc : List (String × GqlValue)),
      json_to_gql_entries kvs acc
        = (json_obj_entries kvs).map
            (fun ps => ps.foldl (fun m p => insertSorted p.1 p.2 m) acc) := by
  intro kvs
  induction kvs with
  | nil => intro acc; rfl
  | cons kv rest ih =>
    intro acc
    obtain ⟨k, v⟩ := kv
    cases hv : json_to_gql v with
    | none => simp [json_to_gql_entries, json_obj_entries, hv]
    | some g =>
      simp only [json_to_gql_entries, json_obj_entries, hv]
      rw [ih (insertSorted k g acc)]
      cases hrest : json_obj_entries rest with
      | none => simp [hrest]
      | some ps => simp [hrest]

/-! ### Claim theorems -/

/-- Claim C1, counterexample: for the request `{ messages { id } }` and a
resolver that returns a `TypeList` whose seed maps carry the helper key
`parentTypename` (exactly as the repository's introspection resolvers do),
`GqlSchema::resolve` returns a response in which the key `parentTypename`
appears inside a list element even though no field of that name is selected
at that depth: `sparsify_return` never descends into `List` values, so the
claimed sparsification law fails. -/
theorem c1_sparsification_cex :
    resolveCore c1Schema 10 () c1Pending none
      = some (.ok (.obj [("messages",
          .arr [.obj [("id", .str "1"), ("parentTypename", .str "Query")]])])) ∧
    (resolveCore c1Schema 10 () c1Pending none).map
        (fun r => match r with
          | .ok j => jsonKeysSelected j c1Pending.fields
          | .error _ => true)
      = some false := by
  constructor <;>
    simp +decide [resolveCore, resolve_loop_next, resolveLoopGo, stackPop, runFrame,
      runFrameGo, get_resolution_value_next, get_resolvers, c1Schema, c1Pending, leafField,
      containsKey, insertSorted, alistLookup, resolve_top_fields, sparsify_return,
      sparsify_obj, gql_to_json, gql_obj_to_json, gql_list_to_json, jsonKeysSelected,
      jsonEntriesSelected, jsonListSelected]

/-- Claim C1 (amended): after sparsification, every key reached from the
value through object nesting only — not crossing a list boundary — names a
prepared field of the selection at the same depth; keys inside list
elements are outside the guarantee. -/
theorem c1_sparsification_object_depths (v : GqlValue) (f : SimpleField) :
    objKeysSelected (sparsify_return v f) f = true :=
  sparsify_objKeys_aux v f

/-- Claim C2: registering a subscription on channel 1 and then stopping it
leaves a state that violates the bi-index invariant — the record is still in
the primary map and still lists channel 1, while channel 1's bucket no
longer contains the instance (`remove_sub` never removes from the primary
map). -/
theorem c2_bi_index_broken_by_stop :
    (registryRun [.register "u" "s" 0 0 [1], .stop "u" "s"] ConnectionTracker.new).map
        biIndexInvariant = some false ∧
    registryRun [.register "u" "s" 0 0 [1], .stop "u" "s"] ConnectionTracker.new
      = some ⟨1, [(⟨"u", "s"⟩, ⟨[1], 0, 0⟩)], [(1, [])]⟩ :=
  ⟨rfl, rfl⟩

/-- Claim C3: after StopSubscription the instance is still a key of the
primary subscriptions map (lookup succeeds) even though it has been removed
from its channel's bucket — `remove_sub` only touches the buckets. -/
theorem c3_stop_does_not_remove_primary :
    (registryRun [.register "u2" "s2" 0 0 [2], .stop "u2" "s2"] ConnectionTracker.new).map
        (fun st => ((alistLookup st.subscriptions ⟨"u2", "s2"⟩).isSome,
                    alistLookup st.channels 2))
      = some (true, some []) :=
  rfl

/-- Claim C10: the bucket-removal loop of `remove_sub` is not total. When
the stopped instance sits at position 0 of a two-element bucket,
`swap_remove(0)` shrinks the bucket to length 1 and the loop then indexes
position 1 — out of bounds, a panic. The second conjunct shows the panic is
reachable from the empty registry by two registrations on the same channel
followed by a stop of the first. -/
theorem c10_bucket_removal_out_of_bounds :
    removeFromBucket ⟨"u1", "s1"⟩ [⟨"u1", "s1"⟩, ⟨"u2", "s2"⟩] = none ∧
    registryRun [.register "u1" "s1" 0 0 [1], .register "u2" "s2" 1 1 [1],
        .stop "u1" "s1"] ConnectionTracker.new = none :=
  ⟨rfl, rfl⟩

/-- Claim C7: when `MsgMessageCreated` delivery completes, no frame goes to
a subscription owned by the event's sender, and the frames answer exactly
the instances of the event channel's bucket whose user differs from the
sender, in bucket order. -/
theorem c7_self_echo_suppression (st : ConnectionTracker) (channel : Int)
    (sender : String) (frames : List SentFrame)
    (h : handleMessageCreated st channel sender = some frames) :
    (∀ f ∈ frames, f.owner ≠ sender) ∧
    frames.map (fun f => SubscriptionInstance.mk f.owner f.sub_id)
      = ((alistLookup st.channels channel).getD []).filter
          (fun s => !(s.user == sender)) := by
  unfold handleMessageCreated at h
  cases hb : alistLookup st.channels channel with
  | none =>
    rw [hb] at h
    have hfr : frames = [] := by simpa using h.symm
    subst hfr
    simp
  | some subs =>
    rw [hb] at h
    constructor
    · intro f hf
      rcases deliver_fold_owner st sender subs [] frames h f hf with hin | hne
      · exact absurd hin (List.not_mem_nil f)
      · exact hne
    · simpa using deliver_fold_filter st sender subs [] frames h

/-- Witness for C7 at a concrete registry state: users "a" and "b" are both
subscribed on channel 7; an event from sender "a" produces exactly one
frame, to "b". -/
theorem c7_witness :
    (∀ f ∈ ([⟨1, "s2", "b"⟩] : List SentFrame), f.owner ≠ "a") ∧
    ([⟨1, "s2", "b"⟩] : List SentFrame).map
        (fun f => SubscriptionInstance.mk f.owner f.sub_id)
      = ((alistLookup c7State.channels 7).getD []).filter
          (fun s => !(s.user == "a")) :=
  c7_self_echo_suppression c7State 7 "a" [⟨1, "s2", "b"⟩] rfl

/-- Claim C4, counterexample: with the claim's declarations
`foo: String!, bar: Int, sham: Boolean` and variables
`{"foo": "Hello", "bar": 6, "sham": true}`, `parse_variables` does not
succeed — it fails with a `Variable` error on `bar`, because
`naive_check_var_type` matches Int values against the type name "Integer",
not "Int". -/
theorem c4_int_declaration_rejected :
    parse_variables c4DefsInt (some c4Values)
      = some (.error (.Variable
          ⟨"the variable bar was not of type NamedType(\"Int\")", "bar"⟩)) := by
  simp +decide [parse_variables, parse_variables_go, parse_variables_loop,
    parse_variables_defaults, c4DefsInt, c4Values, alistLookup, alistInsert, alistRemove,
    json_to_gql, JNumber.is_u64, JNumber.as_i64, wrap32, naive_check_var_type, typeDebug]

/-- Claim C4 (amended): with the declaration written `bar: Integer` — the
name the check actually compares against — the example request succeeds
with the claimed bindings; and in general a Named type accepts a String /
Float / Boolean value exactly when it is named "String" / "Float" /
"Boolean", while an Int value is accepted exactly by the name "Integer". -/
theorem c4_variable_coercion :
    parse_variables c4DefsInteger (some c4Values)
      = some (.ok [("bar", .Int 6), ("foo", .String "Hello"), ("sham", .Boolean true)]) ∧
    (∀ (l : String) (n : Int),
      naive_check_var_type (.NamedType l) (.Int n) = (l == "Integer")) ∧
    (∀ (l s : String),
      naive_check_var_type (.NamedType l) (.String s) = (l == "String")) ∧
    (∀ (l : String) (f : F64),
      naive_check_var_type (.NamedType l) (.Float f) = (l == "Float")) ∧
    (∀ (l : String) (b : Bool),
      naive_check_var_type (.NamedType l) (.Boolean b) = (l == "Boolean")) := by
  refine ⟨?_, fun _ _ => rfl, fun _ _ => rfl, fun _ _ => rfl, fun _ _ => rfl⟩
  simp +decide [parse_variables, parse_variables_go, parse_variables_loop,
    parse_variables_defaults, c4DefsInteger, c4Values, alistLookup, alistInsert, alistRemove,
    json_to_gql, JNumber.is_u64, JNumber.as_i64, wrap32, naive_check_var_type, typeDebug]

/-- Claim C9, counterexample: the JSON number 2147483648 is representable
as an i64, but `json_to_gql` narrows it with `as i32` and returns
`Int(-2147483648)`, not an Int holding 2147483648. -/
theorem c9_number_counterexample :
    json_to_gql (.num (.posInt 2147483648)) = some (.Int (-2147483648)) ∧
    (-2147483648 : Int) ≠ 2147483648 := by
  refine ⟨?_, by decide⟩
  simp +decide [json_to_gql, JNumber.is_u64, JNumber.as_i64, wrap32]

/-- Claim C9 (amended): a JSON number representable as i64 becomes an Int
holding the value narrowed by the `as i32` cast (exact only within i32
range); a u64-only number above i64::MAX panics in `as_i64().unwrap()`;
JSON objects become ordered maps converted entrywise. -/
theorem c9_json_number_conversion :
    (∀ n : Nat, n ≤ 9223372036854775807 →
      json_to_gql (.num (.posInt n)) = some (.Int (wrap32 n))) ∧
    (∀ i : Int, json_to_gql (.num (.negInt i)) = some (.Int (wrap32 i))) ∧
    (∀ n : Nat, 9223372036854775807 < n → json_to_gql (.num (.posInt n)) = none) ∧
    (∀ kvs : List (String × JsonValue),
      json_to_gql (.obj kvs)
        = (json_obj_entries kvs).map
            (fun ps => GqlValue.Object (ps.foldl (fun m p => insertSorted p.1 p.2 m) []))) := by
  refine ⟨?_, ?_, ?_, ?_⟩
  · intro n hn
    simp [json_to_gql, JNumber.is_u64, JNumber.as_i64, hn]
  · intro i
    simp [json_to_gql, JNumber.is_u64, JNumber.is_i64, JNumber.as_i64]
  · intro n hn
    have hn' : ¬n ≤ 9223372036854775807 := Nat.not_le.mpr hn
    simp [json_to_gql, JNumber.is_u64, JNumber.as_i64, hn']
  · intro kvs
    rw [json_to_gql, json_entries_char kvs []]
    cases h : json_obj_entries kvs <;> simp [h]

/-- Witness for C9 at concrete numbers: 5 converts to `Int(wrap32 5)`, and
the u64-only number 18446744073709551615 panics. -/
theorem c9_witness :
    json_to_gql (.num (.posInt 5)) = some (.Int (wrap32 5)) ∧
    json_to_gql (.num (.posInt 18446744073709551615)) = none :=
  ⟨c9_json_number_conversion.1 5 (by norm_num),
   c9_json_number_conversion.2.2.1 18446744073709551615 (by norm_num)⟩

/-- Claim C5, counterexample: the frame's data seeds the top-level field `a`
(child selection `{ y }`), a resolver for `A.y` is registered, yet the
response is `{"a": {}}` — the engine neither invoked a resolver nor
recursed into the child selection; the seed was kept verbatim and then
sparsified. Under the claim (recurse into children using the seed as child
root) the response would contain `y`. -/
theorem c5_seeded_no_recursion_cex :
    resolveCore c5Schema 10 () c5Pending (some c5Root) = some (.ok (.obj [("a", .obj [])])) ∧
    (get_resolvers c5Schema "A" "y").isOk = true := by
  constructor
  · simp +decide [resolveCore, resolve_loop_next, resolveLoopGo, stackPop, runFrame,
      runFrameGo, get_resolution_value_next, get_resolvers, c5Schema, c5Pending, c5Root,
      leafField, containsKey, insertSorted, alistLookup, resolve_top_fields,
      sparsify_return, sparsify_obj, gql_to_json, gql_obj_to_json, gql_list_to_json]
  · rfl

theorem seeded_single_loop_aux {Ctx : Type} (sch : GqlSchemaM Ctx) (fuel : Nat) (ctx : Ctx)
    (ty : String) (field : SimpleField) (root : GqlObj)
    (h : containsKey root field.name = true) :
    resolve_loop_next sch (fuel + 1) ctx ⟨ty, [field]⟩ (some root) = some (.ok root) := by
  simp [resolve_loop_next, resolveLoopGo, stackPop, runFrame, runFrameGo, h]

/-- Claim C5 (amended): a prepared field whose name is already a key of the
frame's data map is skipped entirely — no resolver invocation and no
recursion into its child selections; the loop returns the seed untouched,
and the whole resolution is independent of the resolver registry and
context (so of any resolver behavior), for any two schemas over any two
context types. -/
theorem c5_seeded_field_skipped {Ctx Ctx' : Type} (sch : GqlSchemaM Ctx)
    (sch' : GqlSchemaM Ctx') (ctx : Ctx) (ctx' : Ctx') (fuel fuel' : Nat)
    (ty ty' : String) (field : SimpleField) (root : GqlObj)
    (h : containsKey root field.name = true) :
    resolve_loop_next sch (fuel + 1) ctx ⟨ty, [field]⟩ (some root) = some (.ok root) ∧
    resolveCore sch (fuel + 1) ctx ⟨ty, [field]⟩ (some root)
      = resolveCore sch' (fuel' + 1) ctx' ⟨ty', [field]⟩ (some root) := by
  have h1 := seeded_single_loop_aux sch fuel ctx ty field root h
  have h2 := seeded_single_loop_aux sch' fuel' ctx' ty' field root h
  exact ⟨h1, by simp only [resolveCore, h1, h2]⟩

/-- Witness for C5 at the concrete seeded request `{ a { y } }` against two
different registries. -/
theorem c5_witness :
    resolve_loop_next c5Schema 10 () ⟨"Query", [⟨"a", [], [], [leafField "y"]⟩]⟩
        (some c5Root) = some (.ok c5Root) ∧
    resolveCore c5Schema 10 () ⟨"Query", [⟨"a", [], [], [leafField "y"]⟩]⟩ (some c5Root)
      = resolveCore (⟨[]⟩ : GqlSchemaM Unit) 8 ()
          ⟨"Q2", [⟨"a", [], [], [leafField "y"]⟩]⟩ (some c5Root) :=
  c5_seeded_field_skipped c5Schema ⟨[]⟩ () () 9 7 "Query" "Q2"
    ⟨"a", [], [], [leafField "y"]⟩ c5Root rfl

/-- Claim C6, counterexample: a document with one query and one mutation
fails operation selection with a `Field` error, but its message is
"Request may only contain", not "mixed operation kinds". -/
theorem c6_message_cex :
    get_initial_items 5 [] c6Doc
      = some (.error (.Field ⟨"Request may only contain", "Query"⟩)) ∧
    ("Request may only contain" : String) ≠ "mixed operation kinds" :=
  ⟨rfl, by decide⟩

/-- Claim C6 (amended): for every parsed document containing both a query
and a mutation (stated for documents whose operations declare no variables,
so that variable coercion cannot fail first), request preparation fails
with a `Field` error carrying the message "Request may only contain" — for
every fuel, before any resolver could be invoked (the resolution loop runs
only on the success of this prefix). -/
theorem c6_mixed_operations (fuel : Nat) (doc : List QDefinition)
    (hq : 0 < (get_queries doc).length) (hm : 0 < (get_mutations doc).length)
    (hv : get_var_defs doc = []) :
    resolve_prepares fuel doc none
      = some (.error (.QueryValidation (.Field ⟨"Request may only contain", "Query"⟩))) := by
  have hq0 : ((get_queries doc).length == 0) = false := by
    simp [Nat.pos_iff_ne_zero.mp hq]
  have hm0 : ((get_mutations doc).length == 0) = false := by
    simp [Nat.pos_iff_ne_zero.mp hm]
  unfold resolve_prepares
  rw [hv]
  have hpv : parse_variables [] none = some (.ok []) := rfl
  rw [hpv]
  unfold get_initial_items
  simp [hq0, hm0]

/-- Witness for C6 at the concrete two-operation document. -/
theorem c6_witness :
    resolve_prepares 5 c6Doc none
      = some (.error (.QueryValidation (.Field ⟨"Request may only contain", "Query"⟩))) :=
  c6_mixed_operations 5 c6Doc (by decide) (by decide) rfl

/-- Claim C8: during lowering, an inline fragment whose type condition names
the current parent type contributes no fields; one with any other condition
(or none) expands its selection set; and a fragment spread expands the
referenced fragment's selection set against the current parent type. -/
theorem c8_fragment_lowering :
    (∀ (fuel : Nat) (frags : List (String × FragmentDefinition)) (items : List Selection)
        (on_type : String),
      get_fields (fuel + 1) frags (.InlineFragment (some on_type) items) on_type
        = some (.ok [])) ∧
    (∀ (fuel : Nat) (frags : List (String × FragmentDefinition)) (cond : Option String)
        (items : List Selection) (on_type : String), cond ≠ some on_type →
      get_fields (fuel + 1) frags (.InlineFragment cond items) on_type
        = get_fields_list fuel frags items on_type) ∧
    (∀ (fuel : Nat) (frags : List (String × FragmentDefinition)) (nm : String)
        (fragment : FragmentDefinition) (on_type : String),
      alistLookup frags nm = some fragment →
      get_fields (fuel + 1) frags (.FragmentSpread nm) on_type
        = get_fields_list fuel frags fragment.selection_set on_type) := by
  refine ⟨?_, ?_, ?_⟩
  · intro fuel frags items on_type
    simp [get_fields]
  · intro fuel frags cond items on_type h
    have hb : (cond == some on_type) = false := beq_eq_false_iff_ne.mpr h
    simp [get_fields, hb]
  · intro fuel frags nm fragment on_type h
    simp [get_fields, h]

/-- Witness for C8 at concrete selections and a concrete fragment table. -/
theorem c8_witness :
    get_fields 3 [] (.InlineFragment (some "Query") []) "Query" = some (.ok []) ∧
    get_fields 3 [] (.InlineFragment none [.Field (QField.mk "x" [] [])]) "Query"
      = get_fields_list 2 [] [.Field (QField.mk "x" [] [])] "Query" ∧
    get_fields 3 [("F", c8Frag)] (.FragmentSpread "F") "Query"
      = get_fields_list 2 [("F", c8Frag)] c8Frag.selection_set "Query" :=
  ⟨c8_fragment_lowering.1 2 [] [] "Query",
   c8_fragment_lowering.2.1 2 [] none [.Field (QField.mk "x" [] [])] "Query"
     (fun hc => Option.noConfusion hc),
   c8_fragment_lowering.2.2 2 [("F", c8Frag)] "F" c8Frag "Query" rfl⟩
